import Mathlib

/-!
# Verification of the `racket` worker-pool coordinator

A shallow embedding of the Go package `racket` (files `job.go`, `progress.go`,
`work.go`) together with proofs of the behavioural properties stated in its
specification.

* `work.go` — the `Work` parameter bag and its coercing accessors (built on the
  `spf13/cast` coercion library, modelled here at its interface for the value
  shapes that occur: nil, string, bool, int).
* `progress.go` — the `Progress` tagged envelope, its constructors, rendering,
  and the `ProgressLogger` sink loop (modelled as a pure event-producing
  function; Go type assertions `x.(T)` become fallible extractions whose
  failure is a `GoPanic`).
* `job.go` — the `Supervisor` / worker lifecycle, modelled as a small-step
  transition system over an explicit state (semaphore slots, the atomic
  live-worker counter, the set of spawned workers and their phases), and the
  `IsDone` debounced polling loop, modelled as a recurrence over the sequence
  of counter readings.
-/

/-! ## Go values and errors

`GoVal` models the dynamic (`any`) values stored in a `Work` parameter map:
the shapes exercised by the package are nil, string, bool and int.
`GoError` models a Go `error` value as produced by `errors.New` /
`fmt.Errorf` without wrapping: a bare message string, compared by value. -/

/-- A dynamically-typed Go value (`any`) as stored in a `Work` config map. -/
inductive GoVal where
  | vNil : GoVal
  | vString : String → GoVal
  | vBool : Bool → GoVal
  | vInt : Int → GoVal
deriving DecidableEq, Repr

/-- A Go `error` value: `fmt.Errorf(msg)` with no format verbs, i.e. an
error whose `Error()` method returns `msg`. Two such errors are equal iff
their messages are equal, matching the deep equality used by the tests. -/
structure GoError where
  msg : String
deriving DecidableEq, Repr

/-! ## The `spf13/cast` coercions (external collaborator of `work.go`)

Modelled at the interface boundary for the four `GoVal` shapes, following the
library's documented behaviour: coercion never fails, a failed conversion
degrades to the zero value of the target type. String-to-int parsing is
modelled for optionally-signed decimal literals. -/

/-- `strconv.ParseBool`: accepts the twelve literal forms, otherwise fails. -/
def parseBoolGo (s : String) : Option Bool :=
  if s = "1" ∨ s = "t" ∨ s = "T" ∨ s = "true" ∨ s = "TRUE" ∨ s = "True" then
    some true
  else if s = "0" ∨ s = "f" ∨ s = "F" ∨ s = "false" ∨ s = "FALSE" ∨ s = "False" then
    some false
  else
    none

/-- Decimal digit string to `Nat`, `none` if empty or a non-digit occurs. -/
def parseNatGo (s : List Char) : Option Nat :=
  match s with
  | [] => none
  | _ =>
    s.foldl (fun acc c =>
      match acc with
      | none => none
      | some n => if c.isDigit then some (n * 10 + (c.toNat - 48)) else none)
      (some 0)

/-- `strconv` decimal integer parsing: an optional sign followed by digits. -/
def parseIntGo (s : String) : Option Int :=
  match s.toList with
  | '-' :: rest => (parseNatGo rest).map (fun n => -(n : Int))
  | '+' :: rest => (parseNatGo rest).map (fun n => (n : Int))
  | l => (parseNatGo l).map (fun n => (n : Int))

namespace GoCast

/-- `cast.ToString`: nil renders empty, strings pass through, bools render as
`true`/`false`, ints render in decimal. Never fails. -/
def ToString : GoVal → String
  | .vNil => ""
  | .vString s => s
  | .vBool b => if b then "true" else "false"
  | .vInt n => toString n

/-- `cast.ToBool`: nil is false, bools pass through, an int is true iff
nonzero, a string goes through `strconv.ParseBool` with failure degrading
to false. Never fails. -/
def ToBool : GoVal → Bool
  | .vNil => false
  | .vString s => (parseBoolGo s).getD false
  | .vBool b => b
  | .vInt n => decide (n ≠ 0)

/-- `cast.ToInt`: nil is 0, true is 1 and false is 0, ints pass through, a
string is parsed with failure degrading to 0. Never fails. -/
def ToInt : GoVal → Int
  | .vNil => 0
  | .vString s => (parseIntGo s).getD 0
  | .vBool b => if b then 1 else 0
  | .vInt n => n

end GoCast

/-! ## `work.go` -/

/-- `Work` is a representation of specification to pass to a Worker doing a
Job: an immutable map from string keys to dynamic values, modelled as an
association list. -/
structure Work where
  config : List (String × GoVal)
deriving DecidableEq, Repr

/-- `NewWork` takes a map and returns a specified unit of Work. -/
def NewWork (config : List (String × GoVal)) : Work :=
  { config := config }

/-- `Work.Get` returns the value associated with the key, or nil: Go map
indexing yields the zero value (a nil `any`) for a missing key. -/
def Work.Get (w : Work) (key : String) : GoVal :=
  (w.config.lookup key).getD .vNil

/-- `Work.GetString` returns the string-ified value associated with the key. -/
def Work.GetString (w : Work) (key : String) : String :=
  GoCast.ToString (w.Get key)

/-- `Work.GetBool` returns the bool-ified value associated with the key. -/
def Work.GetBool (w : Work) (key : String) : Bool :=
  GoCast.ToBool (w.Get key)

/-- `Work.GetInt` returns the int-ified value associated with the key. -/
def Work.GetInt (w : Work) (key : String) : Int :=
  GoCast.ToInt (w.Get key)

/-- The Work value built in the package's test:
`{"Hello": "World", "Truth": true, "The Answer": 42}`. -/
def testWork : Work :=
  NewWork [("Hello", .vString "World"), ("Truth", .vBool true),
           ("The Answer", .vInt 42)]

/-! ## `progress.go` — data model -/

/-- `ProgressType` is a small open integer tag (`type ProgressType int`):
out-of-range values remain representable. -/
abbrev ProgressType := Int

/-- `ProgressError` is the ProgressType when the Data is an error. -/
def ProgressError : ProgressType := 0

/-- `ProgressUpdate` is the ProgressType when the Data is a numeric update. -/
def ProgressUpdate : ProgressType := 1

/-- `ProgressEstimate` is the ProgressType when the Data is a numeric
evaluation of how much work is to be performed. -/
def ProgressEstimate : ProgressType := 2

/-- `ProgressMessage` is the ProgressType when the Data is a string message. -/
def ProgressMessage : ProgressType := 3

/-- `ProgressOther` is the ProgressType when Data is to be consumed
elsewhere. -/
def ProgressOther : ProgressType := 4

/-- `ProgressType.String` returns the stringified version of the type name;
the default branch of the Go switch returns the empty string. -/
def ProgressType.String (p : ProgressType) : String :=
  if p = ProgressError then "ProgressError"
  else if p = ProgressUpdate then "ProgressUpdate"
  else if p = ProgressEstimate then "ProgressEstimate"
  else if p = ProgressMessage then "ProgressMessage"
  else if p = ProgressOther then "ProgressOther"
  else ""

/-- The dynamic (`any`) payload of a `Progress` envelope: the shapes put
there by the package are `error`, `string` and `int64`. -/
inductive GoAny where
  | aError : GoError → GoAny
  | aString : String → GoAny
  | aInt64 : Int → GoAny
deriving DecidableEq, Repr

/-- `Progress` is a tuple of a ProgressType and Data. -/
structure Progress where
  type : ProgressType
  data : GoAny
deriving DecidableEq, Repr

/-- A Go runtime panic raised by a failed unchecked type assertion
`x.(T)`. -/
inductive GoPanic where
  | typeAssertion : GoPanic
deriving DecidableEq, Repr

/-- The unchecked type assertion `p.Data.(error)`: yields the error when the
dynamic type matches, otherwise panics. -/
def GoAny.asError : GoAny → Except GoPanic GoError
  | .aError e => .ok e
  | _ => .error .typeAssertion

/-- The unchecked type assertion `p.Data.(string)`. -/
def GoAny.asString : GoAny → Except GoPanic String
  | .aString s => .ok s
  | _ => .error .typeAssertion

/-- The unchecked type assertion `p.Data.(int64)`. -/
def GoAny.asInt64 : GoAny → Except GoPanic Int
  | .aInt64 n => .ok n
  | _ => .error .typeAssertion

/-- How `fmt`'s `%+v` verb renders the payloads the package uses: an error
prints via its `Error()` method, a string prints itself, an int64 prints in
decimal. -/
def GoAny.plusV : GoAny → String
  | .aError e => e.msg
  | .aString s => s
  | .aInt64 n => toString n

/-- `Progress.Error` returns the Progress Data as an error if Progress is a
ProgressError, or nil; the extraction `p.Data.(error)` is unchecked and
panics when the payload has the wrong dynamic type. `.ok none` models the
nil return. -/
def Progress.Error (p : Progress) : Except GoPanic (Option GoError) :=
  if p.type = ProgressError then
    (p.data.asError).map some
  else
    .ok none

/-- `Progress.String` returns `fmt.Sprintf("%s: %+v", p.Type, p.Data)`. -/
def Progress.String (p : Progress) : String :=
  ProgressType.String p.type ++ ": " ++ p.data.plusV

/-- How `%+v` renders a whole `Progress` struct value (used by the sink's
default branch, which formats the envelope itself, not `p.String()`): the
brace-delimited field dump, the tag field printing via its `String()`
method. -/
def progressStructPlusV (p : Progress) : String :=
  "\x7bType:" ++ ProgressType.String p.type ++ " Data:" ++ p.data.plusV ++ "\x7d"

/-- `PErrorf` returns a ProgressError with a formatted error (the formatting
of the message is done before entry; the constructor wraps the resulting
error value). -/
def PErrorf (msg : String) : Progress :=
  { type := ProgressError, data := .aError { msg := msg } }

/-- `PMessagef` returns a ProgressMessage with a formatted string. -/
def PMessagef (msg : String) : Progress :=
  { type := ProgressMessage, data := .aString msg }

/-- `PUpdate` returns a ProgressUpdate with the specified count. -/
def PUpdate (count : Int) : Progress :=
  { type := ProgressUpdate, data := .aInt64 count }

/-- `PEstimate` returns a ProgressEstimate with the specified estimate. -/
def PEstimate (estimate : Int) : Progress :=
  { type := ProgressEstimate, data := .aInt64 estimate }

/-! ## `progress.go` — the `ProgressLogger` sink

The sink loop is modelled per envelope as a pure function producing the
ordered list of observable effects (a line written to the output logger, an
invocation of the error callback, a send on the bar channel), or a `GoPanic`
when one of its unchecked type assertions fails. The loop over the channel
becomes a fold over the list of envelopes received before the channel
closes. The optional `errf` callback and `barChan` are modelled by the
booleans `errfSet` / `barSet` (nil-ness is all the code inspects). -/

/-- An observable effect of one iteration of the `ProgressLogger` loop. -/
inductive SinkEvent where
  | out : String → SinkEvent
  | errfCall : GoError → SinkEvent
  | barSend : Progress → SinkEvent
deriving DecidableEq, Repr

/-- One iteration of the `ProgressLogger` switch (`progress.go`), for a
single envelope `p`:

* `ProgressError`: always print `"[PROGRESS] ERROR: <err>"`; then, if a
  callback is configured, call it with the asserted error.
* `ProgressMessage`: print `"[PROGRESS] <msg>"` only when `logMessages`.
* `ProgressUpdate`, `ProgressEstimate`: print only when `logMessages`; then,
  independently, forward the envelope as-is when a bar channel is configured.
* default (including `ProgressOther` and out-of-range tags): always print
  the generic `"[PROGRESS] ??: <%+v of p>"` line. -/
def processProgress (logMessages errfSet barSet : Bool) (p : Progress) :
    Except GoPanic (List SinkEvent) :=
  if p.type = ProgressError then
    match p.data.asError with
    | .error pan => .error pan
    | .ok e =>
      .ok ([.out ("[PROGRESS] ERROR: " ++ e.msg)] ++
        if errfSet then [.errfCall e] else [])
  else if p.type = ProgressMessage then
    if logMessages then
      match p.data.asString with
      | .error pan => .error pan
      | .ok s => .ok [.out ("[PROGRESS] " ++ s)]
    else .ok []
  else if p.type = ProgressUpdate ∨ p.type = ProgressEstimate then
    if logMessages then
      match p.data.asInt64 with
      | .error pan => .error pan
      | .ok n =>
        .ok ([.out ("[PROGRESS] " ++ ProgressType.String p.type ++ ": " ++
              toString n)] ++
          if barSet then [.barSend p] else [])
    else
      .ok (if barSet then [.barSend p] else [])
  else
    .ok [.out ("[PROGRESS] ??: " ++ progressStructPlusV p)]

/-- `ProgressLogger` over the whole sequence of envelopes received from
`progressChan` before it was closed: the concatenation, in order, of the
effects of each iteration (a panic aborts the loop). -/
def ProgressLogger (logMessages errfSet barSet : Bool) :
    List Progress → Except GoPanic (List SinkEvent)
  | [] => .ok []
  | p :: rest =>
    match processProgress logMessages errfSet barSet p with
    | .error pan => .error pan
    | .ok evs =>
      match ProgressLogger logMessages errfSet barSet rest with
      | .error pan => .error pan
      | .ok evss => .ok (evs ++ evss)

/-- Projection of the bar-channel traffic out of an effect list. -/
def barTraffic (evs : List SinkEvent) : List Progress :=
  evs.filterMap (fun e => match e with | .barSend p => some p | _ => none)

/-- Recognises an error-callback invocation. -/
def isErrfCall (e : SinkEvent) : Bool :=
  match e with | .errfCall _ => true | _ => false

/-- The four-envelope feed of the specification's sink scenario: one Error,
one Message, one Estimate, one Update. -/
def demoFeed : List Progress :=
  [PErrorf "boom", PMessagef "hi", PEstimate 42, PUpdate 7]

/-- The payload of every envelope built by one of the four constructors has
the dynamic type that the tag promises: `error` for Error, `string` for
Message, `int64` for Update and Estimate; any payload is fine for other
tags. -/
def WellTyped (p : Progress) : Prop :=
  if p.type = ProgressError then ∃ e, p.data = .aError e
  else if p.type = ProgressMessage then ∃ s, p.data = .aString s
  else if p.type = ProgressUpdate ∨ p.type = ProgressEstimate then
    ∃ n, p.data = .aInt64 n
  else True

/-- The effects of the logged (`logMessages = true`) run of the sink demo
scenario, in order. -/
def demoEventsLogged : List SinkEvent :=
  [.out "[PROGRESS] ERROR: boom", .errfCall { msg := "boom" },
   .out "[PROGRESS] hi",
   .out "[PROGRESS] ProgressEstimate: 42", .barSend (PEstimate 42),
   .out "[PROGRESS] ProgressUpdate: 7", .barSend (PUpdate 7)]

/-- The effects of the unlogged (`logMessages = false`) run of the sink demo
scenario, in order. -/
def demoEventsUnlogged : List SinkEvent :=
  [.out "[PROGRESS] ERROR: boom", .errfCall { msg := "boom" },
   .barSend (PEstimate 42), .barSend (PUpdate 7)]

/-- C5: fed one Error, one Message, one Estimate and one Update envelope
with a forwarding channel attached, the sink forwards exactly the Estimate
and Update envelopes, unchanged and in order, and does so for either value
of the logging flag; the error callback fires exactly once, immediately
after the Error envelope's output line; the Message line is surfaced exactly
when the logging flag is enabled. -/
theorem sink_demo_routing :
    ProgressLogger true true true demoFeed = .ok demoEventsLogged ∧
    ProgressLogger false true true demoFeed = .ok demoEventsUnlogged ∧
    barTraffic demoEventsLogged = [PEstimate 42, PUpdate 7] ∧
    barTraffic demoEventsUnlogged = [PEstimate 42, PUpdate 7] ∧
    demoEventsLogged.countP isErrfCall = 1 ∧
    demoEventsUnlogged.countP isErrfCall = 1 ∧
    demoEventsLogged.get? 0 = some (.out "[PROGRESS] ERROR: boom") ∧
    demoEventsLogged.get? 1 = some (.errfCall { msg := "boom" }) ∧
    demoEventsLogged.contains (.out "[PROGRESS] hi") = true ∧
    demoEventsUnlogged.contains (.out "[PROGRESS] hi") = false := by
  refine ⟨rfl, rfl, ?_, ?_, ?_, ?_, ?_, ?_, ?_, ?_⟩ <;> decide

/-- C6: an envelope whose tag is none of Error, Message, Update, Estimate
(so `ProgressOther` or any out-of-range tag) is always surfaced to the
output destination with the generic render form, regardless of the logging
flag and of the optional callback and bar channel; the sink neither panics
on nor drops such an envelope. -/
theorem sink_unrecognized_always_surfaced (lm ef bs : Bool) (p : Progress)
    (h : p.type ≠ ProgressError ∧ p.type ≠ ProgressMessage ∧
         p.type ≠ ProgressUpdate ∧ p.type ≠ ProgressEstimate) :
    processProgress lm ef bs p =
      .ok [.out ("[PROGRESS] ??: " ++ progressStructPlusV p)] := by
  obtain ⟨h1, h2, h3, h4⟩ := h
  simp [processProgress, h1, h2, h3, h4]

/-- Witness for `sink_unrecognized_always_surfaced` at the test's
out-of-range tag 1024 with payload `"CRAP!"`. -/
theorem sink_unrecognized_always_surfaced_witness :
    processProgress true true true { type := 1024, data := .aString "CRAP!" } =
      .ok [.out "[PROGRESS] ??: \x7bType: Data:CRAP!\x7d"] :=
  sink_unrecognized_always_surfaced true true true
    { type := 1024, data := .aString "CRAP!" }
    ⟨by decide, by decide, by decide, by decide⟩

/-- C7: the `Work` accessors are total — a missing key yields the
zero-equivalent (nil, empty string, false, zero) — and on the Work built
from `{"Hello": "World", "Truth": true, "The Answer": 42}` they give the
values the specification lists, including the best-effort coercions for
type mismatches. -/
theorem work_accessors_total_and_examples (w : Work) (key : String)
    (h : w.config.lookup key = none) :
    (w.Get key = .vNil ∧ w.GetString key = "" ∧ w.GetBool key = false ∧
      w.GetInt key = 0) ∧
    testWork.GetString "Hello" = "World" ∧
    testWork.GetBool "Truth" = true ∧
    testWork.GetInt "The Answer" = 42 ∧
    testWork.Get "Missing" = .vNil ∧
    testWork.GetBool "Hello" = false ∧
    testWork.GetString "The Answer" = "42" ∧
    testWork.GetInt "Truth" = 1 := by
  refine ⟨⟨?_, ?_, ?_, ?_⟩, ?_, ?_, ?_, ?_, ?_, ?_, ?_⟩
  · simp [Work.Get, h]
  · simp [Work.GetString, Work.Get, h, GoCast.ToString]
  · simp [Work.GetBool, Work.Get, h, GoCast.ToBool]
  · simp [Work.GetInt, Work.Get, h, GoCast.ToInt]
  all_goals decide

/-- Witness for `work_accessors_total_and_examples` at the key `"Missing"`,
absent from `testWork`. -/
theorem work_accessors_total_and_examples_witness :
    testWork.Get "Missing" = .vNil ∧ testWork.GetString "Missing" = "" ∧
    testWork.GetBool "Missing" = false ∧ testWork.GetInt "Missing" = 0 :=
  (work_accessors_total_and_examples testWork "Missing" (by decide)).1

/-- C8: `Progress.Error` returns nil for every non-Error tag and returns the
stored error for an Error-tagged envelope; the envelope `PErrorf "boom"` has
tag `ProgressError`, its `Error()` equals the error built directly from
`"boom"`, and it renders as `"ProgressError: boom"`. -/
theorem progress_error_accessor (p : Progress) (h : p.type ≠ ProgressError) :
    Progress.Error p = .ok none ∧
    (∀ e : GoError,
      Progress.Error { type := ProgressError, data := .aError e } =
        .ok (some e)) ∧
    (PErrorf "boom").type = ProgressError ∧
    Progress.Error (PErrorf "boom") = .ok (some { msg := "boom" }) ∧
    Progress.String (PErrorf "boom") = "ProgressError: boom" := by
  refine ⟨by simp [Progress.Error, h], fun e => rfl, rfl, rfl, ?_⟩
  decide

/-- Witness for `progress_error_accessor` at the Message-tagged envelope
`PMessagef "hi"`. -/
theorem progress_error_accessor_witness :
    Progress.Error (PMessagef "hi") = .ok none :=
  (progress_error_accessor (PMessagef "hi") (by decide)).1

/-- C9: every tag outside the five defined ones stringifies to the empty
string, and an envelope with such a tag still renders its payload after the
separator (tag 1024 with payload `"CRAP!"` renders as `": CRAP!"`); each of
the five defined tags stringifies to its own name. -/
theorem progressType_string_out_of_range (n : ProgressType)
    (h : n ≠ ProgressError ∧ n ≠ ProgressUpdate ∧ n ≠ ProgressEstimate ∧
         n ≠ ProgressMessage ∧ n ≠ ProgressOther) :
    ProgressType.String n = "" ∧
    Progress.String { type := n, data := .aString "CRAP!" } = ": CRAP!" ∧
    ProgressType.String ProgressError = "ProgressError" ∧
    ProgressType.String ProgressUpdate = "ProgressUpdate" ∧
    ProgressType.String ProgressEstimate = "ProgressEstimate" ∧
    ProgressType.String ProgressMessage = "ProgressMessage" ∧
    ProgressType.String ProgressOther = "ProgressOther" := by
  obtain ⟨h1, h2, h3, h4, h5⟩ := h
  refine ⟨?_, ?_, rfl, rfl, rfl, rfl, rfl⟩
  · simp [ProgressType.String, h1, h2, h3, h4, h5]
  · simp [Progress.String, GoAny.plusV, ProgressType.String, h1, h2, h3, h4, h5]

/-- Witness for `progressType_string_out_of_range` at the test's tag
1024. -/
theorem progressType_string_out_of_range_witness :
    ProgressType.String 1024 = "" ∧
    Progress.String { type := 1024, data := .aString "CRAP!" } = ": CRAP!" :=
  ⟨(progressType_string_out_of_range 1024
      ⟨by decide, by decide, by decide, by decide, by decide⟩).1,
   (progressType_string_out_of_range 1024
      ⟨by decide, by decide, by decide, by decide, by decide⟩).2.1⟩

/-- C10: each of the four constructors builds an envelope whose payload's
dynamic type matches its tag; under that precondition all unchecked payload
extractions — in `Progress.Error` and in each tag branch of the sink — run
without panicking, whereas an Error/Message/Update/Estimate-tagged envelope
whose payload has the wrong dynamic type makes the corresponding extraction
panic. -/
theorem welltyped_payload_extractions (p : Progress) (hp : WellTyped p) :
    (∀ msg, WellTyped (PErrorf msg)) ∧
    (∀ msg, WellTyped (PMessagef msg)) ∧
    (∀ c, WellTyped (PUpdate c)) ∧
    (∀ e, WellTyped (PEstimate e)) ∧
    (∃ r, Progress.Error p = .ok r) ∧
    (∀ lm ef bs, ∃ evs, processProgress lm ef bs p = .ok evs) ∧
    Progress.Error { type := ProgressError, data := .aString "x" } =
      .error .typeAssertion ∧
    processProgress true true true
      { type := ProgressError, data := .aString "x" } =
        .error .typeAssertion ∧
    processProgress true true true
      { type := ProgressMessage, data := .aInt64 0 } =
        .error .typeAssertion ∧
    processProgress true true true
      { type := ProgressUpdate, data := .aString "x" } =
        .error .typeAssertion ∧
    processProgress true true true
      { type := ProgressEstimate, data := .aString "x" } =
        .error .typeAssertion := by
  refine ⟨fun msg => ⟨{ msg := msg }, rfl⟩,
    fun msg => by simp [WellTyped, PMessagef, ProgressMessage, ProgressError],
    fun c => by simp [WellTyped, PUpdate, ProgressUpdate, ProgressError,
      ProgressMessage],
    fun e => by simp [WellTyped, PEstimate, ProgressEstimate, ProgressError,
      ProgressMessage, ProgressUpdate],
    ?_, ?_, rfl, rfl, rfl, rfl, rfl⟩
  · unfold Progress.Error
    by_cases h0 : p.type = ProgressError
    · rw [WellTyped] at hp
      rw [if_pos h0] at hp ⊢
      obtain ⟨e, he⟩ := hp
      exact ⟨some e, by rw [he]; rfl⟩
    · rw [if_neg h0]
      exact ⟨none, rfl⟩
  · intro lm ef bs
    unfold processProgress
    rw [WellTyped] at hp
    by_cases h0 : p.type = ProgressError
    · rw [if_pos h0] at hp ⊢
      obtain ⟨e, he⟩ := hp
      rw [he]
      exact ⟨_, rfl⟩
    · rw [if_neg h0] at hp ⊢
      by_cases h3 : p.type = ProgressMessage
      · rw [if_pos h3] at hp ⊢
        obtain ⟨s, hs⟩ := hp
        cases lm
        · exact ⟨[], rfl⟩
        · rw [hs]
          exact ⟨_, rfl⟩
      · rw [if_neg h3] at hp ⊢
        by_cases h12 : p.type = ProgressUpdate ∨ p.type = ProgressEstimate
        · rw [if_pos h12] at hp ⊢
          obtain ⟨n, hn⟩ := hp
          cases lm
          · exact ⟨_, rfl⟩
          · rw [hn]
            exact ⟨_, rfl⟩
        · rw [if_neg h12]
          exact ⟨_, rfl⟩

/-- Witness for `welltyped_payload_extractions` at the constructor-built
envelope `PErrorf "w"`. -/
theorem welltyped_payload_extractions_witness :
    (∃ r, Progress.Error (PErrorf "w") = .ok r) ∧
    (∃ evs, processProgress true true true (PErrorf "w") = .ok evs) :=
  ⟨(welltyped_payload_extractions (PErrorf "w")
      ⟨{ msg := "w" }, rfl⟩).2.2.2.2.1,
   (welltyped_payload_extractions (PErrorf "w")
      ⟨{ msg := "w" }, rfl⟩).2.2.2.2.2.1 true true true⟩

/-! ## `job.go` — the Supervisor / worker lifecycle

The concurrent system of `Supervisor` (`job.go`) is embedded as a
small-step transition system. One state holds:

* `free` — the free slots of the admission semaphore `j.lock`
  (`semaphore.NewSemaphore(maxWorkers)`, modelled at its interface as a
  counting semaphore: `Until()` acquires a slot, `Unlock()` releases it);
* `admitting` — whether the admission-loop goroutine is still running its
  `select`;
* `drained` — whether `doneFunc` has closed `j.doneChan`;
* `workers` — one entry per `NewWorker` goroutine spawned and not yet fully
  exited, with its current phase;
* `workerCount` — the value of the atomic counter `j.workerCount`;
* `submitted` — the number of sends on the unbuffered `workChan` that have
  completed (each such rendezvous is a receive by exactly one worker);
* `completed` — the number of `workerFunc` invocations that have returned.

Worker phases follow `NewWorker`: `waiting` between `j.workerCount.Add(1)`
and the `select`; `running` while `j.workerFunc` executes; `exited` after
the deferred `j.workerCount.Add(-1)` has run but before the deferred
`j.lock.Unlock()` has. -/

/-- The phase of one spawned `NewWorker` goroutine. -/
inductive WPhase where
  | waiting : WPhase
  | running : WPhase
  | exited : WPhase
deriving DecidableEq, Repr

/-- Whether the phase still counts in `j.workerCount` (the deferred
`Add(-1)` has not yet run). -/
def WPhase.isLive : WPhase → Bool
  | .exited => false
  | _ => true

/-- Whether the phase is an executing `workerFunc` invocation. -/
def WPhase.isRunning : WPhase → Bool
  | .running => true
  | _ => false

/-- The state of one `defaultJob`'s supervisor system. -/
structure SupState where
  free : Nat
  admitting : Bool
  drained : Bool
  workers : List WPhase
  workerCount : Int
  submitted : Nat
  completed : Nat
deriving DecidableEq, Repr

/-- The number of `workerFunc` invocations currently executing. -/
def SupState.running (s : SupState) : Nat :=
  s.workers.countP WPhase.isRunning

/-- The number of workers past admission whose deferred decrement has not
yet run. -/
def SupState.live (s : SupState) : Nat :=
  s.workers.countP WPhase.isLive

/-- The state right after `Supervisor(maxWorkers, workChan)` returns: all
`maxWorkers` semaphore slots free, the admission loop running, nothing
drained, no workers, counter zero. -/
def initSup (maxWorkers : Nat) : SupState :=
  { free := maxWorkers, admitting := true, drained := false, workers := [],
    workerCount := 0, submitted := 0, completed := 0 }

/-- One interleaved step of the supervisor system (`job.go`):

* `admitWorker` — the admission loop's `select` takes `<-j.lock.Until()`
  (a slot must be free), runs `j.workerCount.Add(1)` and `go j.NewWorker(c)`;
* `stopAdmitting` — with `doneChan` closed, the `select` takes `<-j.doneChan`
  and the loop returns, permanently;
* `drain` — the caller invokes the returned `doneFunc`, closing `doneChan`;
* `receiveWork` — a waiting worker's `select` receives from the unbuffered
  `workChan`, completing one submission rendezvous and entering
  `j.workerFunc` (submissions model the sends completed before the drain
  signal, so this requires `¬ drained`);
* `skipWork` — with `doneChan` closed, a waiting worker's `select` takes
  `<-j.doneChan`; the deferred `j.workerCount.Add(-1)` runs as it returns;
* `finishWork` — a running `workerFunc` returns and the deferred
  `j.workerCount.Add(-1)` runs;
* `release` — an exited worker's deferred `j.lock.Unlock()` runs and the
  goroutine is gone. -/
inductive SupStep : SupState → SupState → Prop where
  | admitWorker (s : SupState) (ha : s.admitting = true) (hf : 0 < s.free) :
      SupStep s { s with free := s.free - 1,
                         workers := WPhase.waiting :: s.workers,
                         workerCount := s.workerCount + 1 }
  | stopAdmitting (s : SupState) (hd : s.drained = true) (ha : s.admitting = true) :
      SupStep s { s with admitting := false }
  | drain (s : SupState) (hd : s.drained = false) :
      SupStep s { s with drained := true }
  | receiveWork (s : SupState) (l r : List WPhase)
      (hw : s.workers = l ++ WPhase.waiting :: r) (hd : s.drained = false) :
      SupStep s { s with workers := l ++ WPhase.running :: r,
                         submitted := s.submitted + 1 }
  | skipWork (s : SupState) (l r : List WPhase)
      (hw : s.workers = l ++ WPhase.waiting :: r) (hd : s.drained = true) :
      SupStep s { s with workers := l ++ WPhase.exited :: r,
                         workerCount := s.workerCount - 1 }
  | finishWork (s : SupState) (l r : List WPhase)
      (hw : s.workers = l ++ WPhase.running :: r) :
      SupStep s { s with workers := l ++ WPhase.exited :: r,
                         workerCount := s.workerCount - 1,
                         completed := s.completed + 1 }
  | release (s : SupState) (l r : List WPhase)
      (hw : s.workers = l ++ WPhase.exited :: r) :
      SupStep s { s with workers := l ++ r, free := s.free + 1 }

/-- The states a supervisor started with `maxWorkers` slots can reach. -/
def SupReachable (maxWorkers : Nat) (s : SupState) : Prop :=
  Relation.ReflTransGen SupStep (initSup maxWorkers) s

/-- The inductive invariant of the supervisor system: semaphore slots plus
spawned workers account for the whole capacity; the atomic counter counts
exactly the live workers; completed submissions split into finished and
still-running invocations. -/
def SupInv (maxWorkers : Nat) (s : SupState) : Prop :=
  s.free + s.workers.length = maxWorkers ∧
  s.workerCount = (s.live : Int) ∧
  s.submitted = s.completed + s.running

/-- The initial state satisfies the invariant. -/
theorem supInv_init (maxWorkers : Nat) : SupInv maxWorkers (initSup maxWorkers) := by
  refine ⟨?_, ?_, ?_⟩ <;> simp [initSup, SupState.live, SupState.running]

/-- Each step preserves the invariant. -/
theorem supInv_step {maxWorkers : Nat} {s t : SupState}
    (hinv : SupInv maxWorkers s) (hstep : SupStep s t) :
    SupInv maxWorkers t := by
  obtain ⟨hcap, hcount, hsub⟩ := hinv
  cases hstep with
  | admitWorker ha hf =>
    refine ⟨by simp; omega, ?_, ?_⟩
    · simp [SupState.live, List.countP_cons, WPhase.isLive] at hcount ⊢
      omega
    · simpa [SupState.running, List.countP_cons, WPhase.isRunning] using hsub
  | stopAdmitting hd ha =>
    exact ⟨hcap, hcount, hsub⟩
  | drain hd =>
    exact ⟨hcap, hcount, hsub⟩
  | receiveWork l r hw hd =>
    simp only [SupState.live, SupState.running] at hcount hsub
    rw [hw] at hcap hcount hsub
    refine ⟨by simpa using hcap, ?_, ?_⟩
    · simp [SupState.live, List.countP_append, List.countP_cons,
        WPhase.isLive] at hcount ⊢
      omega
    · simp [SupState.running, List.countP_append, List.countP_cons,
        WPhase.isRunning] at hsub ⊢
      omega
  | skipWork l r hw hd =>
    simp only [SupState.live, SupState.running] at hcount hsub
    rw [hw] at hcap hcount hsub
    refine ⟨by simpa using hcap, ?_, ?_⟩
    · simp [SupState.live, List.countP_append, List.countP_cons,
        WPhase.isLive] at hcount ⊢
      omega
    · simp [SupState.running, List.countP_append, List.countP_cons,
        WPhase.isRunning] at hsub ⊢
      omega
  | finishWork l r hw =>
    simp only [SupState.live, SupState.running] at hcount hsub
    rw [hw] at hcap hcount hsub
    refine ⟨by simpa using hcap, ?_, ?_⟩
    · simp [SupState.live, List.countP_append, List.countP_cons,
        WPhase.isLive] at hcount ⊢
      omega
    · simp [SupState.running, List.countP_append, List.countP_cons,
        WPhase.isRunning] at hsub ⊢
      omega
  | release l r hw =>
    simp only [SupState.live, SupState.running] at hcount hsub
    rw [hw] at hcap hcount hsub
    refine ⟨by simp at hcap ⊢; omega, ?_, ?_⟩
    · simp [SupState.live, List.countP_append, List.countP_cons,
        WPhase.isLive] at hcount ⊢
      omega
    · simp [SupState.running, List.countP_append, List.countP_cons,
        WPhase.isRunning] at hsub ⊢
      omega

/-- Every reachable state satisfies the invariant. -/
theorem supInv_reachable {maxWorkers : Nat} {s : SupState}
    (hs : SupReachable maxWorkers s) : SupInv maxWorkers s := by
  induction hs with
  | refl => exact supInv_init maxWorkers
  | tail _ hstep ih => exact supInv_step ih hstep

/-- A running worker is live: `countP` monotonicity for the two phase
predicates. -/
theorem countP_running_le_live (l : List WPhase) :
    l.countP WPhase.isRunning ≤ l.countP WPhase.isLive := by
  induction l with
  | nil => simp
  | cons a t ih =>
    cases a <;>
      simp [List.countP_cons, WPhase.isRunning, WPhase.isLive] <;> omega

/-- `countP` is bounded by the length. -/
theorem countP_le_len (p : WPhase → Bool) (l : List WPhase) :
    l.countP p ≤ l.length := by
  induction l with
  | nil => simp
  | cons a t ih => by_cases h : p a <;> simp [List.countP_cons, h] <;> omega

/-- C1: for a Supervisor started with `maxWorkers = K ≥ 1`, every reachable
state runs at most `K` simultaneous `workerFunc` invocations; and once the
spawned workers have all exited, the number of completed invocations equals
the number of completed work submissions — so a run that submits `n` items
ends with exactly `n` invocations. -/
theorem supervisor_concurrency_and_exactness (maxWorkers n : Nat)
    (hK : 1 ≤ maxWorkers) (s : SupState)
    (hs : SupReachable maxWorkers s) :
    s.running ≤ maxWorkers ∧
    (s.submitted = n → s.workers = [] → s.completed = n) := by
  obtain ⟨hcap, hcount, hsub⟩ := supInv_reachable hs
  constructor
  · calc s.running ≤ s.workers.length := countP_le_len _ _
    _ ≤ maxWorkers := by omega
  · intro hn hnil
    have hrun : s.running = 0 := by simp [SupState.running, hnil]
    omega

/-- The end state of a concrete four-step `K = 1` run: one worker admitted,
handed the one submitted item, finished, slot released. -/
def supDemoEnd : SupState :=
  { free := 1, admitting := true, drained := false, workers := [],
    workerCount := 0, submitted := 1, completed := 1 }

/-- Witness for `supervisor_concurrency_and_exactness`: the four-step run of
a `K = 1` supervisor that admits one worker, hands it the single submitted
item, and sees it finish and release its slot. -/
theorem supervisor_concurrency_and_exactness_witness :
    supDemoEnd.running ≤ 1 ∧ supDemoEnd.completed = 1 := by
  have hreach : SupReachable 1 supDemoEnd := by
    refine Relation.ReflTransGen.head (SupStep.admitWorker (initSup 1) rfl (by decide)) ?_
    refine Relation.ReflTransGen.head
      (SupStep.receiveWork _ [] [] rfl rfl) ?_
    refine Relation.ReflTransGen.head
      (SupStep.finishWork _ [] [] rfl) ?_
    exact Relation.ReflTransGen.head (SupStep.release _ [] [] rfl)
      Relation.ReflTransGen.refl
  have h := supervisor_concurrency_and_exactness 1 1 (by decide) _ hreach
  exact ⟨h.1, h.2 rfl rfl⟩

/-- C2: in every reachable state the atomic counter `j.workerCount` equals
the number of workers past admission whose deferred decrement has not yet
run — in particular it is never negative — and every step of the system
changes it by exactly an atomic increment, an atomic decrement, or not at
all. -/
theorem workerCount_counts_live_workers (maxWorkers : Nat) (s : SupState)
    (hs : SupReachable maxWorkers s) :
    s.workerCount = (s.live : Int) ∧
    0 ≤ s.workerCount ∧
    ∀ t, SupStep s t →
      t.workerCount = s.workerCount + 1 ∨
      t.workerCount = s.workerCount - 1 ∨
      t.workerCount = s.workerCount := by
  obtain ⟨hcap, hcount, hsub⟩ := supInv_reachable hs
  refine ⟨hcount, by omega, ?_⟩
  intro t hstep
  cases hstep with
  | admitWorker ha hf => left; rfl
  | stopAdmitting hd ha => right; right; rfl
  | drain hd => right; right; rfl
  | receiveWork l r hw hd => right; right; rfl
  | skipWork l r hw hd => right; left; rfl
  | finishWork l r hw => right; left; rfl
  | release l r hw => right; right; rfl

/-- Witness for `workerCount_counts_live_workers` at the freshly started
`K = 1` supervisor. -/
theorem workerCount_counts_live_workers_witness :
    (initSup 1).workerCount = ((initSup 1).live : Int) ∧
    0 ≤ (initSup 1).workerCount :=
  ⟨(workerCount_counts_live_workers 1 (initSup 1)
      Relation.ReflTransGen.refl).1,
   (workerCount_counts_live_workers 1 (initSup 1)
      Relation.ReflTransGen.refl).2.1⟩

/-! ## `job.go` — the `IsDone` completion waiter

The waiter goroutine first blocks on `<-j.doneChan` (so it does nothing
until the drain signal), then loops: read `j.workerCount.Load()`; a
positive reading resets `count` to zero, a zero reading increments it; when
`count > 4` — five consecutive zero readings — the loop breaks and `b <-
true` fires the completion signal; otherwise it sleeps 10ms and polls
again. The loop is embedded over the sequence `r : Nat → Nat` of counter
readings, `r t` being the value loaded at the `t`-th poll after the drain
signal. -/

/-- The value of the waiter's `count` variable after the `t`-th poll: the
length of the current streak of consecutive zero readings ending at `t`. -/
def pollStreak (r : Nat → Nat) : Nat → Nat
  | 0 => if r 0 = 0 then 1 else 0
  | n + 1 => if r (n + 1) = 0 then pollStreak r n + 1 else 0

/-- The completion signal fires at poll `t`: the loop's `count > 4` test
first succeeds there. -/
def pollFires (r : Nat → Nat) (t : Nat) : Prop :=
  4 < pollStreak r t ∧ ∀ u < t, pollStreak r u ≤ 4

/-- A positive reading resets the streak. -/
theorem pollStreak_reset {r : Nat → Nat} {t : Nat} (h : 0 < r t) :
    pollStreak r t = 0 := by
  cases t <;> simp [pollStreak] <;> omega

/-- Every poll inside a streak read zero: position `t - j` for `j` below
the streak length. -/
theorem pollStreak_reads_zero (r : Nat → Nat) :
    ∀ t j, j < pollStreak r t → r (t - j) = 0 := by
  intro t
  induction t with
  | zero =>
    intro j hj
    by_cases h0 : r 0 = 0
    · simpa using h0
    · simp [pollStreak, h0] at hj
  | succ n ih =>
    intro j hj
    by_cases h0 : r (n + 1) = 0
    · match j with
      | 0 => simpa using h0
      | j' + 1 =>
        simp only [pollStreak, h0, if_pos] at hj
        have : n + 1 - (j' + 1) = n - j' := by omega
        rw [this]
        exact ih j' (by omega)
    · simp [pollStreak, h0] at hj

/-- The streak is at most the number of polls so far. -/
theorem pollStreak_le (r : Nat → Nat) : ∀ t, pollStreak r t ≤ t + 1 := by
  intro t
  induction t with
  | zero => by_cases h : r 0 = 0 <;> simp [pollStreak, h]
  | succ n ih => by_cases h : r (n + 1) = 0 <;> simp [pollStreak, h] <;> omega

/-- Once the readings are all zero from poll `T` on, the streak at `T + k`
is at least `k + 1`. -/
theorem pollStreak_ge (r : Nat → Nat) (T : Nat) (hz : ∀ u, T ≤ u → r u = 0) :
    ∀ k, k + 1 ≤ pollStreak r (T + k) := by
  intro k
  induction k with
  | zero =>
    have h0 : r T = 0 := hz T le_rfl
    cases T with
    | zero => simp [pollStreak, h0]
    | succ m => simp [pollStreak, h0]
  | succ k ih =>
    have h0 : r (T + k + 1) = 0 := hz _ (by omega)
    have : T + (k + 1) = (T + k) + 1 := by omega
    rw [this]
    simp only [pollStreak, h0, if_pos]
    omega

/-- C3: the completion waiter (which blocks on the drain signal before its
first poll) declares completion only after five consecutive zero readings
of the live-worker counter: a positive reading resets the streak, the
signal cannot fire before the fifth poll and requires the last five
readings to be zero, and it does fire — within four further polls, a fixed
bound — as soon as the counter stays zero; a zero counter reading means no
`workerFunc` invocation is running at that instant, and a drained
supervisor whose admission loop has exited and whose workers are gone is
stuck at counter zero, so the readings do stay zero. -/
theorem isDone_completion (r : Nat → Nat) (T maxWorkers : Nat) (s : SupState)
    (hs : SupReachable maxWorkers s) :
    (∀ t, 0 < r t → pollStreak r t = 0) ∧
    (∀ t, pollFires r t → 4 ≤ t ∧ ∀ j, j ≤ 4 → r (t - j) = 0) ∧
    ((∀ u, T ≤ u → r u = 0) → ∃ t, t ≤ T + 4 ∧ pollFires r t) ∧
    (s.workerCount = 0 → s.running = 0) ∧
    (s.drained = true → s.admitting = false → s.workers = [] →
      s.workerCount = 0 ∧ ∀ u, ¬ SupStep s u) := by
  obtain ⟨hcap, hcount, hsub⟩ := supInv_reachable hs
  refine ⟨fun t => pollStreak_reset, ?_, ?_, ?_, ?_⟩
  · intro t ht
    obtain ⟨hgt, hmin⟩ := ht
    have hle := pollStreak_le r t
    exact ⟨by omega, fun j hj => pollStreak_reads_zero r t j (by omega)⟩
  · intro hz
    have h5 : 4 < pollStreak r (T + 4) := by
      have := pollStreak_ge r T hz 4
      omega
    have hex : ∃ t, 4 < pollStreak r t := ⟨T + 4, h5⟩
    refine ⟨Nat.find hex, Nat.find_min' hex h5, Nat.find_spec hex, ?_⟩
    intro u hu
    have := Nat.find_min hex hu
    omega
  · intro h0
    have hlive : s.live = 0 := by omega
    have := countP_running_le_live s.workers
    simp only [SupState.live] at hlive
    simp only [SupState.running]
    omega
  · intro hd ha hnil
    constructor
    · have hlive : s.live = 0 := by simp [SupState.live, hnil]
      omega
    · intro u hstep
      cases hstep with
      | admitWorker ha2 hf => rw [ha] at ha2; exact Bool.false_ne_true ha2
      | stopAdmitting hd2 ha2 => rw [ha] at ha2; exact Bool.false_ne_true ha2
      | drain hd2 => rw [hd] at hd2; exact absurd hd2 (by decide)
      | receiveWork l r hw hd2 => rw [hnil] at hw; simp at hw
      | skipWork l r hw hd2 => rw [hnil] at hw; simp at hw
      | finishWork l r hw => rw [hnil] at hw; simp at hw
      | release l r hw => rw [hnil] at hw; simp at hw

/-- Witness for `isDone_completion`: the all-zero reading sequence fires by
poll 4, and the freshly started supervisor's zero counter indeed has no
running invocation. -/
theorem isDone_completion_witness :
    (∃ t, t ≤ 0 + 4 ∧ pollFires (fun _ => 0) t) ∧
    SupState.running (initSup 1) = 0 :=
  ⟨(isDone_completion (fun _ => 0) 0 1 (initSup 1)
      Relation.ReflTransGen.refl).2.2.1 (fun u hu => rfl),
   (isDone_completion (fun _ => 0) 0 1 (initSup 1)
      Relation.ReflTransGen.refl).2.2.2.1 rfl⟩

/-! ## `job.go` — the completion signal channel

`IsDone` builds an unbuffered `chan bool` `b`, spawns the waiter goroutine,
and returns `b`. The waiter performs exactly one send (`b <- true`) when
the debounce succeeds and then returns; the channel is never closed. Under
Go channel semantics each completed send on an unbuffered channel is a
rendezvous with exactly one receiver; a receive on a closed channel would
instead complete for every reader. -/

/-- The final state of a channel: how many sends were executed on it over
its lifetime, and whether it was ever closed. -/
structure OneShotChan where
  sent : Nat
  closed : Bool
deriving DecidableEq, Repr

/-- The channel returned by one `IsDone()` call, as the waiter goroutine
leaves it: a single `b <- true` executed, no `close(b)` anywhere. -/
def isDoneSignal : OneShotChan :=
  { sent := 1, closed := false }

/-- Of `readers` goroutines each blocked on one receive from the channel,
the number whose receive ever completes: all of them if the channel is
closed, otherwise one per executed send — the rest block forever. -/
def completedReceives (c : OneShotChan) (readers : Nat) : Nat :=
  if c.closed then readers else min c.sent readers

/-- C4, counterexample: with two readers blocked on the same `IsDone`
channel, only one receive completes — it is not safe for multiple readers
to observe the same firing, because the signal is a single value sent on a
never-closed unbuffered channel. -/
theorem isDone_multi_reader_counterexample :
    completedReceives isDoneSignal 2 = 1 ∧
    completedReceives isDoneSignal 2 ≠ 2 := by
  refine ⟨?_, ?_⟩ <;> decide

/-- C4, amended: the completion signal returned by `IsDone` is a one-shot
notification — exactly one send, the channel is never closed — that a
single reader can block on or select on and observe; among any `k ≥ 1`
readers of the same returned channel, exactly one observes the firing, so
each additional waiter must obtain its own signal by calling `IsDone`
again. -/
theorem isDone_one_shot (k : Nat) (hk : 1 ≤ k) :
    isDoneSignal.sent = 1 ∧
    isDoneSignal.closed = false ∧
    completedReceives isDoneSignal 1 = 1 ∧
    completedReceives isDoneSignal k = 1 := by
  refine ⟨rfl, rfl, rfl, ?_⟩
  simp [completedReceives, isDoneSignal]
  omega

/-- Witness for `isDone_one_shot` at a single reader. -/
theorem isDone_one_shot_witness :
    completedReceives isDoneSignal 1 = 1 :=
  (isDone_one_shot 1 (by decide)).2.2.1
